import Mathlib

/-!
Shallow embedding of the core of the `quilt/lighthouse` sharded
proof-of-stake client, together with proofs about the embedded
operations.

Machine integers (`u64`, hashes, BLS keys and signatures) are modelled
as `Nat`; 32-byte roots as `Nat` (zero is `Hash256::zero()`); byte
vectors as `List Nat`.  BLS verification primitives and tree hashing
are external collaborators of the core, so they enter the embedding as
explicit function parameters.  Fallible Rust functions returning
`Result` are embedded as `Except`.
-/

/-! ## Protocol constants (`ChainSpec`) -/

/-- The subset of the `ChainSpec` protocol-constant record consulted by
the embedded operations. -/
structure ChainSpec where
  max_deposits : Nat
  effective_balance_increment : Nat
  max_effective_balance : Nat
  far_future_epoch : Nat
  slots_per_eth1_voting_period : Nat
  slots_per_epoch : Nat
  shard_slots_per_beacon_slot : Nat
  epochs_per_shard_period : Nat
deriving DecidableEq, Repr

/-! ## Beacon data model (`types` crate) -/

/-- `Eth1Data`: a vote about the eth1 deposit contract state. -/
structure Eth1Data where
  deposit_root : Nat
  deposit_count : Nat
  block_hash : Nat
deriving DecidableEq, Repr

/-- A `Validator` registry record, as created by `process_deposits`. -/
structure Validator where
  pubkey : Nat
  withdrawal_credentials : Nat
  activation_eligibility_epoch : Nat
  activation_epoch : Nat
  exit_epoch : Nat
  withdrawable_epoch : Nat
  effective_balance : Nat
  slashed : Bool
deriving DecidableEq, Repr

/-- `DepositData`: the data a depositor signs. -/
structure DepositData where
  pubkey : Nat
  withdrawal_credentials : Nat
  amount : Nat
  signature : Nat
deriving DecidableEq, Repr

/-- A `Deposit`: a Merkle proof (opaque here), a 0-based index, and the
signed deposit data. -/
structure Deposit where
  proof : List Nat
  index : Nat
  data : DepositData
deriving DecidableEq, Repr

/-- The fields of `BeaconState` read or written by the embedded
per-block sub-steps (`process_eth1_data`, `process_deposits`). -/
structure BeaconState where
  validator_registry : List Validator
  balances : List Nat
  deposit_index : Nat
  latest_eth1_data : Eth1Data
  eth1_data_votes : List Eth1Data
deriving DecidableEq, Repr

/-- Block-processing failures.  `BlockInvalid` reasons are collapsed to
the constructors the embedded sub-steps can produce; each carries the
index of the offending object where the source wraps with
`into_with_index`. -/
inductive BlockError where
  | depositCountInvalid : BlockError
  | merkleInvalid : Nat → BlockError
  | depositIndexInvalid : Nat → BlockError
deriving DecidableEq, Repr

/-! ## `process_eth1_data` (state_processing/per_block_processing.rs) -/

/-- Embedding of `process_eth1_data`: push the vote, count votes equal
to it (the new vote included), and adopt it as `latest_eth1_data` when
`num_votes * 2 > slots_per_eth1_voting_period`.  Always returns `Ok`. -/
def process_eth1_data (state : BeaconState) (eth1_data : Eth1Data)
    (spec : ChainSpec) : Except BlockError BeaconState :=
  let s := { state with eth1_data_votes := state.eth1_data_votes ++ [eth1_data] }
  let num_votes := (s.eth1_data_votes.filter (fun vote => vote = eth1_data)).length
  if num_votes * 2 > spec.slots_per_eth1_voting_period then
    .ok { s with latest_eth1_data := eth1_data }
  else
    .ok s

/-! ## `process_deposits` (state_processing/per_block_processing.rs) -/

/-- The u64 ceiling used by the `safe_add_assign!` saturating add. -/
def u64Max : Nat := 2 ^ 64 - 1

/-- `safe_add_assign!`: u64 saturating addition. -/
def saturatingAdd (a b : Nat) : Nat := min (a + b) u64Max

/-- `get_existing_validator_index`.  Modelled from the spec: the
`verify_deposit` module is not in scope; the spec distinguishes "a
deposit with a pubkey already in the registry" from a new pubkey, so
this is the index of the first registry entry with the deposit's
pubkey (the pubkey cache resolves to the same). -/
def get_existing_validator_index (state : BeaconState) (deposit : Deposit) :
    Option Nat :=
  state.validator_registry.findIdx? (fun v => v.pubkey == deposit.data.pubkey)

/-- The in-series loop of `process_deposits`.  BLS deposit-signature
verification (`verify_deposit_signature`) and the per-deposit index
check (`verify_deposit_index`) live in the `verify_deposit` module,
which is not in scope; they enter as the predicate parameters `vSig`
and `vIndex`.  `i` is the running index used for error reporting.  The
`return Ok(())` the source executes when a new-pubkey deposit has a bad
signature is the `.ok state` in the `none`/bad-signature branch: it
ends the whole loop. -/
def depositLoop (vIndex : BeaconState → Deposit → Bool)
    (vSig : BeaconState → Deposit → Bool) (spec : ChainSpec) :
    BeaconState → Nat → List Deposit → Except BlockError BeaconState
  | state, _, [] => .ok state
  | state, i, deposit :: rest =>
    if vIndex state deposit then
      let state := { state with deposit_index := state.deposit_index + 1 }
      match get_existing_validator_index state deposit with
      | some index =>
        let state := { state with
          balances := state.balances.set index
            (saturatingAdd ((state.balances.get? index).getD 0)
              deposit.data.amount) }
        depositLoop vIndex vSig spec state (i + 1) rest
      | none =>
        if vSig state deposit then
          let validator : Validator := {
            pubkey := deposit.data.pubkey
            withdrawal_credentials := deposit.data.withdrawal_credentials
            activation_eligibility_epoch := spec.far_future_epoch
            activation_epoch := spec.far_future_epoch
            exit_epoch := spec.far_future_epoch
            withdrawable_epoch := spec.far_future_epoch
            effective_balance :=
              min (deposit.data.amount -
                  deposit.data.amount % spec.effective_balance_increment)
                spec.max_effective_balance
            slashed := false }
          depositLoop vIndex vSig spec
            { state with
              validator_registry := state.validator_registry ++ [validator]
              balances := state.balances ++ [deposit.data.amount] }
            (i + 1) rest
        else
          .ok state
    else
      .error (.depositIndexInvalid i)

/-- Embedding of `process_deposits`: check the deposit count against
`min(max_deposits, deposit_count - deposit_index)` (u64 subtraction is
truncated as in `Nat`), verify every Merkle proof (the parameter
`vMerkle` stands for `verify_deposit_merkle_proof`; the parallel
`try_for_each` fails with the first offending index), then run the
in-series loop. -/
def process_deposits (vMerkle : BeaconState → Deposit → Bool)
    (vIndex : BeaconState → Deposit → Bool)
    (vSig : BeaconState → Deposit → Bool)
    (state : BeaconState) (deposits : List Deposit) (spec : ChainSpec) :
    Except BlockError BeaconState :=
  if deposits.length =
      min spec.max_deposits
        (state.latest_eth1_data.deposit_count - state.deposit_index) then
    match deposits.findIdx? (fun d => ! vMerkle state d) with
    | some i => .error (.merkleInvalid i)
    | none => depositLoop vIndex vSig spec state 0 deposits
  else
    .error .depositCountInvalid

/-! ## `ShardBlock` and its canonical root (types/shard_block.rs) -/

/-- `ShardAttestationData`: the data of a shard attestation.  The
attestation-pool key and pruning only consult `target_slot`; the block
root identifies the vote target. -/
structure ShardAttestationData where
  shard_block_root : Nat
  target_slot : Nat
deriving DecidableEq, Repr

/-- `ShardAttestation`: aggregation bitfield (a bitmask over committee
members), the attested data, and the aggregate BLS signature.
Modelled from the spec: the type's own file is not in scope; the spec
describes it as a `data`, an `aggregation_bitfield` (one bit per
committee member) and an aggregate BLS signature.  The aggregate
signature is modelled as the list of group elements multiplied
together, so that the group product is list concatenation. -/
structure ShardAttestation where
  aggregation_bitfield : Nat
  data : ShardAttestationData
  aggregate_signature : List Nat
deriving DecidableEq, Repr

/-- The tuple of `ShardBlock` fields that feed `signed_root`: every
field except `signature`, which carries `#[signed_root(skip_hashing)]`. -/
abbrev ShardSignedRootInput :=
  Nat × Nat × Nat × Nat × Nat × List Nat × List ShardAttestation

/-- `ShardBlock` with its eight fields; `body` is opaque bytes. -/
structure ShardBlock where
  slot : Nat
  shard : Nat
  parent_root : Nat
  beacon_block_root : Nat
  state_root : Nat
  body : List Nat
  attestation : List ShardAttestation
  signature : Nat
deriving DecidableEq, Repr

/-- The fields hashed by the derived `SignedRoot` implementation: all of
them but `signature` (marked `skip_hashing`), in declaration order. -/
def ShardBlock.signedRootFields (b : ShardBlock) : ShardSignedRootInput :=
  (b.slot, b.shard, b.parent_root, b.beacon_block_root, b.state_root,
    b.body, b.attestation)

/-- `ShardBlock::canonical_root`: the tree hash of the block with the
signature field excluded.  The hash itself is an external collaborator,
so it is a parameter `treeHash`. -/
def ShardBlock.canonical_root (treeHash : ShardSignedRootInput → Nat)
    (b : ShardBlock) : Nat :=
  treeHash b.signedRootFields

/-! ## Shard attestation operation pool (shard_operation_pool/lib.rs) -/

/-- `ShardAttestation::signers_disjoint_from`.  Modelled from the spec:
the method's file is not in scope; the spec searches for an existing
attestation whose signer bitfield is disjoint from the new one, so the
method holds when the bitfield intersection is empty. -/
def ShardAttestation.signers_disjoint_from (a b : ShardAttestation) : Bool :=
  a.aggregation_bitfield &&& b.aggregation_bitfield == 0

/-- `ShardAttestation::aggregate`.  Modelled from the spec: aggregation
ORs the bitfields and multiplies the signatures (the group product is
list concatenation here); the data is unchanged. -/
def ShardAttestation.aggregate (a b : ShardAttestation) : ShardAttestation :=
  { a with
    aggregation_bitfield := a.aggregation_bitfield ||| b.aggregation_bitfield
    aggregate_signature := a.aggregate_signature ++ b.aggregate_signature }

/-- `AttestationId`.  Modelled from the spec: the key is
`AttestationId(domain_bytes, data_root)`; the collision-resistant
`data_root` hash is idealised as the data itself. -/
structure AttestationId where
  domain_bytes : Nat
  data : ShardAttestationData
deriving DecidableEq, Repr

/-- `AttestationId::from_data`.  The domain-byte computation depends on
the beacon state and chain spec, which are fixed for a given call; it
enters as the parameter `domainFn`. -/
def AttestationId.from_data (domainFn : ShardAttestationData → Nat)
    (data : ShardAttestationData) : AttestationId :=
  ⟨domainFn data, data⟩

/-- The pool's `attestations` map, embedded as an association list of
buckets (the `HashMap` iteration order is irrelevant to the claims). -/
abbrev OpPool := List (AttestationId × List ShardAttestation)

/-- Bucket lookup (`attestations.entry(id)` resolution). -/
def poolFind (pool : OpPool) (id : AttestationId) :
    Option (List ShardAttestation) :=
  (pool.find? (fun e => e.1 == id)).map Prod.snd

/-- Replace the bucket stored under `id`. -/
def poolUpdate (pool : OpPool) (id : AttestationId)
    (bucket : List ShardAttestation) : OpPool :=
  pool.map (fun e => if e.1 == id then (id, bucket) else e)

/-- The in-place loop of `insert_attestation` over a bucket: each
existing attestation disjoint from the incoming one aggregates it (and
marks `aggregated`); an existing attestation equal to it also marks
`aggregated`.  Returns the rewritten bucket and the flag. -/
def insertLoop (a : ShardAttestation) :
    List ShardAttestation → List ShardAttestation × Bool
  | [] => ([], false)
  | e :: rest =>
    let step := insertLoop a rest
    if e.signers_disjoint_from a then (e.aggregate a :: step.1, true)
    else if e == a then (e :: step.1, true)
    else (e :: step.1, step.2)

/-- `OperationPool::insert_attestation`: resolve the key, start a new
bucket when vacant, otherwise run the aggregation loop and push the
attestation only when nothing aggregated it. -/
def insert_attestation (domainFn : ShardAttestationData → Nat)
    (pool : OpPool) (attestation : ShardAttestation) : OpPool :=
  let id := AttestationId.from_data domainFn attestation.data
  match poolFind pool id with
  | none => pool ++ [(id, [attestation])]
  | some bucket =>
    let r := insertLoop attestation bucket
    poolUpdate pool id (if r.2 then r.1 else r.1 ++ [attestation])

/-- `OperationPool::num_attestations`: total bucket sizes. -/
def num_attestations (pool : OpPool) : Nat :=
  (pool.map (fun e => e.2.length)).sum

/-- The fields of `ShardState` consulted by the embedded operations:
the shard slot, plus the remaining state collapsed into one opaque
component acted on by per-slot processing. -/
structure ShardState where
  slot : Nat
  rest : Nat
deriving DecidableEq, Repr

/-- `OperationPool::prune_attestations`: retain a bucket exactly when
its first attestation exists and has
`finalized_state.slot <= att.data.target_slot`. -/
def prune_attestations (pool : OpPool) (finalized_state : ShardState) :
    OpPool :=
  pool.filter (fun e =>
    match e.2.head? with
    | some att => finalized_state.slot ≤ att.data.target_slot
    | none => false)

/-- The pool invariant maintained by `insert_attestation`: every
attestation in a bucket carries the data its key was built from. -/
def PoolWellFormed (pool : OpPool) : Prop :=
  ∀ e ∈ pool, ∀ a ∈ e.2, a.data = e.1.data

instance : DecidablePred PoolWellFormed := fun pool =>
  inferInstanceAs (Decidable (∀ e ∈ pool, ∀ a ∈ e.2, a.data = e.1.data))

/-- Bucket elements after the aggregation loop keep their data. -/
theorem insertLoop_data (a : ShardAttestation) :
    ∀ (bucket : List ShardAttestation) (x : ShardAttestation),
      x ∈ (insertLoop a bucket).1 → ∃ e ∈ bucket, x.data = e.data := by
  intro bucket
  induction bucket with
  | nil => intro x hx; simp [insertLoop] at hx
  | cons e rest ih =>
    intro x hx
    simp only [insertLoop] at hx
    by_cases hd : e.signers_disjoint_from a
    · simp only [hd, if_pos] at hx
      rcases List.mem_cons.mp hx with h | h
      · exact ⟨e, List.mem_cons_self .., by simp [h, ShardAttestation.aggregate]⟩
      · rcases ih x h with ⟨e', he', hdata⟩
        exact ⟨e', List.mem_cons_of_mem _ he', hdata⟩
    · simp only [hd, if_neg, ite_false] at hx
      by_cases he : e == a
      · simp only [he, if_pos] at hx
        rcases List.mem_cons.mp hx with h | h
        · exact ⟨e, List.mem_cons_self .., by simp [h]⟩
        · rcases ih x h with ⟨e', he', hdata⟩
          exact ⟨e', List.mem_cons_of_mem _ he', hdata⟩
      · simp only [he, if_neg, ite_false] at hx
        rcases List.mem_cons.mp hx with h | h
        · exact ⟨e, List.mem_cons_self .., by simp [h]⟩
        · rcases ih x h with ⟨e', he', hdata⟩
          exact ⟨e', List.mem_cons_of_mem _ he', hdata⟩

/-- `insert_attestation` preserves the pool invariant, for every domain
computation: reachable pool contents are well-formed. -/
theorem insert_attestation_wellFormed
    (domainFn : ShardAttestationData → Nat) (pool : OpPool)
    (a : ShardAttestation) (h : PoolWellFormed pool) :
    PoolWellFormed (insert_attestation domainFn pool a) := by
  intro e he x hx
  simp only [insert_attestation] at he
  rcases hfind : poolFind pool (AttestationId.from_data domainFn a.data) with
    _ | bucket
  · rw [hfind] at he
    rcases List.mem_append.mp he with hin | hnew
    · exact h e hin x hx
    · simp only [List.mem_singleton] at hnew
      subst hnew
      simp only [List.mem_singleton] at hx
      subst hx
      rfl
  · rw [hfind] at he
    simp only [poolFind, Option.map_eq_some'] at hfind
    obtain ⟨q, hq, hq2⟩ := hfind
    have hqmem := List.mem_of_find?_eq_some hq
    have hqkey : q.1 = AttestationId.from_data domainFn a.data := by
      have hpred := List.find?_some hq
      simpa using hpred
    have hbucketWf : ∀ y ∈ bucket, y.data = a.data := by
      intro y hy
      have hy' : y ∈ q.2 := by rw [hq2]; exact hy
      have := h q hqmem y hy'
      rw [this, hqkey]
      rfl
    simp only [poolUpdate, List.mem_map] at he
    obtain ⟨e₀, he₀, hmap⟩ := he
    by_cases hid : e₀.1 == AttestationId.from_data domainFn a.data
    · rw [if_pos hid] at hmap
      subst hmap
      show x.data = a.data
      split at hx
      · obtain ⟨e', he', hdata⟩ := insertLoop_data a bucket x hx
        exact hdata.trans (hbucketWf e' he')
      · rcases List.mem_append.mp hx with hx1 | hx2
        · obtain ⟨e', he', hdata⟩ := insertLoop_data a bucket x hx1
          exact hdata.trans (hbucketWf e' he')
        · simp only [List.mem_singleton] at hx2
          subst hx2
          rfl
    · rw [if_neg hid] at hmap
      subst hmap
      exact h e₀ he₀ x hx

/-! ## Message processor (beacon_node/network/src/sync/message_processor.rs) -/

/-- `GoodbyeReason` of the wire protocol. -/
inductive GoodbyeReason where
  | clientShutdown : GoodbyeReason
  | irrelevantNetwork : GoodbyeReason
  | fault : GoodbyeReason
deriving DecidableEq, Repr

/-- `PeerSyncInfo`, extracted from a `Status` message.  The 4-byte
`fork_version` is one `Nat`; roots are `Nat` with `0` for
`Hash256::zero()`. -/
structure PeerSyncInfo where
  fork_version : Nat
  finalized_root : Nat
  finalized_epoch : Nat
  head_root : Nat
  head_slot : Nat
deriving DecidableEq, Repr

/-- `Epoch::start_slot(slots_per_epoch)`.  Modelled from the spec: the
`types` slot arithmetic is not in scope; the start slot of an epoch is
`epoch * slots_per_epoch`. -/
def epochStartSlot (slotsPerEpoch epoch : Nat) : Nat := epoch * slotsPerEpoch

/-- The four observable outcomes of `process_status`, one per source
branch.  The two `addPeer` branches send the same
`SyncMessage::AddPeer(peer, remote)`; they differ in the logged
classification (known head = synced, unknown head = useful). -/
inductive StatusAction where
  | disconnectIrrelevant : StatusAction
  | keepNaive : StatusAction
  | addPeerSynced : StatusAction
  | addPeerUseful : StatusAction
deriving DecidableEq, Repr

/-- The `Goodbye` request each branch sends (`NetworkContext::disconnect`
sends `Goodbye(reason)`). -/
def StatusAction.goodbyeSent : StatusAction → Option GoodbyeReason
  | .disconnectIrrelevant => some .irrelevantNetwork
  | _ => none

/-- Whether the branch hands the peer to the sync manager
(`SyncMessage::AddPeer`). -/
def StatusAction.handedToSync : StatusAction → Bool
  | .addPeerSynced => true
  | .addPeerUseful => true
  | _ => false

/-- The second row's condition: the remote finalized checkpoint is at or
below ours, both finalized roots are nonzero, and our canonical root at
the start slot of the remote finalized epoch is not the remote
finalized root (an unknown local root also differs from `Some(root)`). -/
def differentFinalizedChain (rootAtSlot : Nat → Option Nat)
    (slotsPerEpoch : Nat) (localInfo remote : PeerSyncInfo) : Prop :=
  remote.finalized_epoch ≤ localInfo.finalized_epoch ∧
  remote.finalized_root ≠ 0 ∧
  localInfo.finalized_root ≠ 0 ∧
  rootAtSlot (epochStartSlot slotsPerEpoch remote.finalized_epoch)
    ≠ some remote.finalized_root

instance (rootAtSlot : Nat → Option Nat) (slotsPerEpoch : Nat)
    (localInfo remote : PeerSyncInfo) :
    Decidable (differentFinalizedChain rootAtSlot slotsPerEpoch localInfo remote) :=
  inferInstanceAs (Decidable (_ ∧ _ ∧ _ ∧ _))

/-- Embedding of `process_status`: the if/else-if classifier.  The
chain's `root_at_slot` and the store's `exists` check (with its
`unwrap_or(false)`) are external collaborators, entering as `rootAtSlot`
and `storeContains`. -/
def process_status (rootAtSlot : Nat → Option Nat)
    (storeContains : Nat → Bool) (slotsPerEpoch : Nat)
    (localInfo remote : PeerSyncInfo) : StatusAction :=
  if localInfo.fork_version ≠ remote.fork_version then
    .disconnectIrrelevant
  else if differentFinalizedChain rootAtSlot slotsPerEpoch localInfo remote then
    .disconnectIrrelevant
  else if remote.finalized_epoch < localInfo.finalized_epoch then
    .keepNaive
  else if storeContains remote.head_root then
    .addPeerSynced
  else
    .addPeerUseful

/-- `BlockProcessingOutcome` of the beacon chain.  Modelled from the
spec: the enum's own crate is not in scope; the spec lists `Processed`,
`ParentUnknown`, `FutureSlot`, `BlockIsAlreadyKnown` and
`Invalid(reason)`, the last standing for every other (non-forwardable)
outcome the gossip handler's catch-all arm receives. -/
inductive BlockProcessingOutcome where
  | processed : Nat → BlockProcessingOutcome
  | parentUnknown : Nat → BlockProcessingOutcome
  | futureSlot : Nat → Nat → BlockProcessingOutcome
  | blockIsAlreadyKnown : BlockProcessingOutcome
  | invalidBlock : Nat → BlockProcessingOutcome
deriving DecidableEq, Repr

/-- `FUTURE_SLOT_TOLERANCE`: blocks more than this many slots ahead of
the slot clock are dropped, not queued. -/
def FUTURE_SLOT_TOLERANCE : Nat := 1

/-- Embedding of `on_block_gossip`, applied to the result of
`beacon_chain.process_block` (errors modelled as `Nat` codes).  Returns
`(should_forward, sent UnknownBlock to sync)`.  The `futureSlot` arm
carries the source's match guard
`present_slot + FUTURE_SLOT_TOLERANCE >= block_slot`; an out-of-tolerance
`futureSlot` falls to the catch-all arm. -/
def on_block_gossip (result : Except Nat BlockProcessingOutcome) :
    Bool × Bool :=
  match result with
  | .ok (.processed _) => (true, false)
  | .ok (.parentUnknown _) => (true, true)
  | .ok (.futureSlot present_slot block_slot) =>
    if present_slot + FUTURE_SLOT_TOLERANCE ≥ block_slot then (true, false)
    else (false, false)
  | .ok .blockIsAlreadyKnown => (true, false)
  | .ok (.invalidBlock _) => (false, false)
  | .error _ => (false, false)

/-- The fields of `BeaconBlock` the range handler inspects: the slot;
the rest of the block is one opaque component. -/
structure BeaconBlock where
  slot : Nat
  body : Nat
deriving DecidableEq, Repr

/-- `BlocksByRangeRequest`: `{start_slot, count, step}`. -/
structure BlocksByRangeRequest where
  start_slot : Nat
  count : Nat
  step : Nat
deriving DecidableEq, Repr

/-- `Vec::dedup_by_key(|b| b.slot)`: drop every element whose slot
equals the previously kept element's slot, keeping the first of each
run. -/
def dedupBySlot : List BeaconBlock → List BeaconBlock
  | [] => []
  | [b] => [b]
  | a :: b :: rest =>
    if b.slot = a.slot then dedupBySlot (a :: rest)
    else a :: dedupBySlot (b :: rest)

/-- The block list assembled by `on_blocks_by_range_request`:
`rev_iter_block_roots` (descending `(root, slot)` pairs from the head,
an external collaborator entering as `revRoots`) is filtered to the
requested range, cut by the source's `take_while` (which, running after
the filter, never stops anything), looked up in the store, filtered
again on the loaded block's own slot, reversed to ascending order, and
deduplicated by slot.  `step` is never read.  The range's upper bound
`req.start_slot + req.count` is computed in u64, which wraps, hence the
explicit `% 2 ^ 64`. -/
def blocks_by_range_blocks (store : Nat → Option BeaconBlock)
    (revRoots : List (Nat × Nat)) (req : BlocksByRangeRequest) :
    List BeaconBlock :=
  let l1 := revRoots.filter (fun rs =>
    decide (req.start_slot ≤ rs.2) &&
    decide ((req.start_slot + req.count) % 2 ^ 64 > rs.2))
  let l2 := l1.takeWhile (fun rs => decide (req.start_slot ≤ rs.2))
  let l3 := l2.filterMap (fun rs => store rs.1)
  let l4 := l3.filter (fun b => decide (b.slot ≥ req.start_slot))
  dedupBySlot l4.reverse

/-- Embedding of `on_blocks_by_range_request`'s response stream: one
`Some(block)` frame per assembled block, then the `None` terminator. -/
def on_blocks_by_range_request (store : Nat → Option BeaconBlock)
    (revRoots : List (Nat × Nat)) (req : BlocksByRangeRequest) :
    List (Option BeaconBlock) :=
  (blocks_by_range_blocks store revRoots req).map some ++ [none]

/-- Shard-state processing failures (never produced by the embedded
function, which always returns `Ok`). -/
inductive ShardStateError where
  | processingError : ShardStateError
deriving DecidableEq, Repr

/-- `ShardSlot::epoch(slots_per_epoch, shard_slots_per_beacon_slot)`.
Modelled from the spec: the slot type's file is not in scope; an epoch
spans `slots_per_epoch` beacon slots of `shard_slots_per_beacon_slot`
shard slots each.  Only the period-boundary test consults it. -/
def shardSlotEpoch (spec : ChainSpec) (slot : Nat) : Nat :=
  slot / (spec.slots_per_epoch * spec.shard_slots_per_beacon_slot)

/-- Embedding of `per_shard_slot_processing`: the source tests the
period boundary `(epoch(state.slot) + 1) % epochs_per_shard_period == 0`
but the body of that branch is empty (a placeholder comment), so the
test has no effect; then `process_shard_slot` (whose module is not in
scope — it enters as the parameter `process_shard_slot`) runs, the slot
is incremented, and the function returns `Ok`. -/
def per_shard_slot_processing
    (process_shard_slot : ShardState → ChainSpec → ShardState)
    (state : ShardState) (spec : ChainSpec) :
    Except ShardStateError ShardState :=
  let _isPeriodBoundary :=
    (shardSlotEpoch spec state.slot + 1) % spec.epochs_per_shard_period == 0
  let s := process_shard_slot state spec
  .ok { s with slot := s.slot + 1 }

/-! ## Theorems -/

/-- C7: `process_eth1_data(state, d)` appends `d` to
`state.eth1_data_votes`; it sets `state.latest_eth1_data` to `d` exactly
when, counting the newly appended vote, the number of votes equal to `d`
strictly exceeds half of `slots_per_eth1_voting_period`
(`num_votes * 2 > slots_per_eth1_voting_period`); otherwise
`latest_eth1_data` is unchanged; and the call always succeeds. -/
theorem process_eth1_data_spec (state : BeaconState) (d : Eth1Data)
    (spec : ChainSpec) :
    ∃ s' : BeaconState,
      process_eth1_data state d spec = .ok s' ∧
      s'.eth1_data_votes = state.eth1_data_votes ++ [d] ∧
      (((state.eth1_data_votes ++ [d]).filter (fun vote => vote = d)).length * 2 >
          spec.slots_per_eth1_voting_period →
        s'.latest_eth1_data = d) ∧
      (¬ ((state.eth1_data_votes ++ [d]).filter (fun vote => vote = d)).length * 2 >
          spec.slots_per_eth1_voting_period →
        s'.latest_eth1_data = state.latest_eth1_data) := by
  simp only [process_eth1_data]
  split
  · rename_i h
    exact ⟨_, rfl, rfl, fun _ => rfl, fun hn => absurd h hn⟩
  · rename_i h
    exact ⟨_, rfl, rfl, fun hp => absurd hp h, fun _ => rfl⟩

/-- C1 (amended): when a deposit carries a pubkey not in the registry
and its BLS deposit signature is invalid, `process_deposits` skips it
(no validator created, no balance changed) with `deposit_index`
advanced by one for it — and then returns `Ok` immediately, so the
remaining deposits after it in the list are NOT processed: no state
change and no `deposit_index` advance happens for any of them.  Stated
for the offending deposit at the head of the list; the loop reaches any
later position with the already-updated state in the same way. -/
theorem process_deposits_invalid_signature_halts
    (vMerkle vIndex vSig : BeaconState → Deposit → Bool)
    (state : BeaconState) (d : Deposit) (rest : List Deposit)
    (spec : ChainSpec)
    (hcount : (d :: rest).length =
      min spec.max_deposits
        (state.latest_eth1_data.deposit_count - state.deposit_index))
    (hmerkle : ∀ x ∈ d :: rest, vMerkle state x = true)
    (hindex : vIndex state d = true)
    (hnew : get_existing_validator_index
      { state with deposit_index := state.deposit_index + 1 } d = none)
    (hsig : vSig { state with deposit_index := state.deposit_index + 1 } d
      = false) :
    process_deposits vMerkle vIndex vSig state (d :: rest) spec
      = .ok { state with deposit_index := state.deposit_index + 1 } := by
  unfold process_deposits
  rw [if_pos hcount]
  have hfind : (d :: rest).findIdx? (fun x => ! vMerkle state x) = none :=
    List.findIdx?_eq_none_iff.mpr (by
      intro x hx
      simp [hmerkle x hx])
  rw [hfind]
  simp only [depositLoop, hindex, hnew, hsig, if_true, ite_true, ite_false,
    Bool.false_eq_true, if_false]

/-- Witness for C1's amended theorem: a concrete bad-signature deposit
followed by a valid one; processing stops after the first. -/
theorem process_deposits_invalid_signature_halts_witness :
    process_deposits (fun _ _ => true) (fun s d => d.index == s.deposit_index)
        (fun _ d => d.data.signature == 7)
        ⟨[], [], 0, ⟨0, 2, 0⟩, []⟩
        [⟨[], 0, ⟨5, 0, 32, 3⟩⟩, ⟨[], 1, ⟨6, 0, 32, 7⟩⟩]
        ⟨16, 1, 32, 999, 8, 8, 2, 4⟩
      = .ok ⟨[], [], 1, ⟨0, 2, 0⟩, []⟩ :=
  process_deposits_invalid_signature_halts
    (fun _ _ => true) (fun s d => d.index == s.deposit_index)
    (fun _ d => d.data.signature == 7)
    ⟨[], [], 0, ⟨0, 2, 0⟩, []⟩
    ⟨[], 0, ⟨5, 0, 32, 3⟩⟩ [⟨[], 1, ⟨6, 0, 32, 7⟩⟩]
    ⟨16, 1, 32, 999, 8, 8, 2, 4⟩
    (by decide) (by decide) (by decide) (by decide) (by decide)

/-- Counterexample for C1 as stated: with a bad-signature new-pubkey
deposit first and a fully valid deposit second, the run ends with
`deposit_index = 1` and an empty registry — the second deposit is not
applied and `deposit_index` does not advance for it, though the claim
says every remaining deposit is still processed normally. -/
theorem process_deposits_remaining_not_processed_cex :
    process_deposits (fun _ _ => true) (fun s d => d.index == s.deposit_index)
        (fun _ d => d.data.signature == 1)
        ⟨[], [], 0, ⟨0, 2, 0⟩, []⟩
        [⟨[], 0, ⟨1, 0, 32, 0⟩⟩, ⟨[], 1, ⟨2, 0, 32, 1⟩⟩]
        ⟨16, 1, 32, 999, 8, 8, 2, 4⟩
      = .ok ⟨[], [], 1, ⟨0, 2, 0⟩, []⟩ ∧
    ∀ s' : BeaconState,
      process_deposits (fun _ _ => true)
          (fun s d => d.index == s.deposit_index)
          (fun _ d => d.data.signature == 1)
          ⟨[], [], 0, ⟨0, 2, 0⟩, []⟩
          [⟨[], 0, ⟨1, 0, 32, 0⟩⟩, ⟨[], 1, ⟨2, 0, 32, 1⟩⟩]
          ⟨16, 1, 32, 999, 8, 8, 2, 4⟩
        = .ok s' →
      s'.deposit_index ≠ 2 ∧ s'.validator_registry = [] := by
  refine ⟨rfl, ?_⟩
  intro s' h
  have h' : (Except.ok (⟨[], [], 1, ⟨0, 2, 0⟩, []⟩ : BeaconState)
      : Except BlockError BeaconState) = .ok s' := h
  injection h' with h''
  rw [← h'']
  exact ⟨by decide, rfl⟩

/-- C3: after `prune_attestations(S_f)`, every attestation in every
retained bucket — not only the bucket's first element — has
`data.target_slot ≥ S_f.slot`.  The hypothesis is the pool invariant
that `insert_attestation` maintains (see
`insert_attestation_wellFormed`): every bucket element carries the data
its key was built from, so a whole bucket shares one `target_slot`. -/
theorem prune_attestations_bound (pool : OpPool) (fs : ShardState)
    (h : PoolWellFormed pool) :
    ∀ e ∈ prune_attestations pool fs, ∀ a ∈ e.2,
      fs.slot ≤ a.data.target_slot := by
  intro e he a ha
  rcases List.mem_filter.mp he with ⟨hpool, hpred⟩
  rcases hhead : e.2.head? with _ | att
  · rw [List.head?_eq_none_iff] at hhead
    rw [hhead] at ha
    cases ha
  · simp only [hhead] at hpred
    have hle : fs.slot ≤ att.data.target_slot := by simpa using hpred
    have hattmem : att ∈ e.2 := List.mem_of_mem_head? hhead
    have h1 := h e hpool att hattmem
    have h2 := h e hpool a ha
    have : a.data = att.data := h2.trans h1.symm
    rw [this]
    exact hle

/-- Witness for C3 at a concrete well-formed pool and finalized state. -/
theorem prune_attestations_bound_witness :
    PoolWellFormed [(⟨0, ⟨5, 10⟩⟩, [⟨1, ⟨5, 10⟩, [2]⟩, ⟨2, ⟨5, 10⟩, [7]⟩])] ∧
    ∀ e ∈ prune_attestations
        [(⟨0, ⟨5, 10⟩⟩, [⟨1, ⟨5, 10⟩, [2]⟩, ⟨2, ⟨5, 10⟩, [7]⟩])]
        ⟨3, 0⟩,
      ∀ a ∈ e.2, (3 : Nat) ≤ a.data.target_slot :=
  ⟨by decide,
    prune_attestations_bound
      [(⟨0, ⟨5, 10⟩⟩, [⟨1, ⟨5, 10⟩, [2]⟩, ⟨2, ⟨5, 10⟩, [7]⟩])]
      ⟨3, 0⟩ (by decide)⟩

/-- C2 (amended): starting from the empty pool, inserting `a` then `b`
with the same data and domain and disjoint bitfields leaves exactly one
attestation, whose bitfield is the union of the two; inserting `a`
twice leaves the single entry `a` provided `a`'s bitfield has at least
one set bit.  (With an all-zero bitfield the copy counts as disjoint
from the original and the aggregation branch multiplies the signature
into it, so the entry is no longer equal to `a`; see the
counterexample.) -/
theorem insert_attestation_aggregation :
    (∀ (domainFn : ShardAttestationData → Nat) (a b : ShardAttestation),
      a.data = b.data →
      a.aggregation_bitfield &&& b.aggregation_bitfield = 0 →
      num_attestations
          (insert_attestation domainFn (insert_attestation domainFn [] a) b)
        = 1 ∧
      insert_attestation domainFn (insert_attestation domainFn [] a) b
        = [(AttestationId.from_data domainFn a.data,
            [{ a with
                aggregation_bitfield :=
                  a.aggregation_bitfield ||| b.aggregation_bitfield
                aggregate_signature :=
                  a.aggregate_signature ++ b.aggregate_signature }])]) ∧
    (∀ (domainFn : ShardAttestationData → Nat) (a : ShardAttestation),
      a.aggregation_bitfield ≠ 0 →
      insert_attestation domainFn (insert_attestation domainFn [] a) a
        = [(AttestationId.from_data domainFn a.data, [a])]) := by
  constructor
  · intro domainFn a b hdata hdisj
    have hd : ShardAttestation.signers_disjoint_from a b = true := by
      simp [ShardAttestation.signers_disjoint_from, hdisj]
    constructor <;>
      simp [insert_attestation, poolFind, poolUpdate, insertLoop,
        AttestationId.from_data, num_attestations, hdata, hd,
        ShardAttestation.aggregate]
  · intro domainFn a hbf
    have hd : ShardAttestation.signers_disjoint_from a a = false := by
      simp [ShardAttestation.signers_disjoint_from, Nat.and_self, hbf]
    simp [insert_attestation, poolFind, poolUpdate, insertLoop,
      AttestationId.from_data, hd]

/-- Counterexample for C2 as stated: with an all-zero aggregation
bitfield, inserting an attestation and then an identical copy does not
leave a single entry equal to the original — the copy is treated as
disjoint, so the aggregation branch multiplies the signature into the
existing entry. -/
theorem insert_attestation_identical_cex :
    insert_attestation (fun _ => 0)
        (insert_attestation (fun _ => 0) [] ⟨0, ⟨0, 0⟩, [5]⟩)
        ⟨0, ⟨0, 0⟩, [5]⟩
      = [(⟨0, ⟨0, 0⟩⟩, [⟨0, ⟨0, 0⟩, [5, 5]⟩])] ∧
    insert_attestation (fun _ => 0)
        (insert_attestation (fun _ => 0) [] ⟨0, ⟨0, 0⟩, [5]⟩)
        ⟨0, ⟨0, 0⟩, [5]⟩
      ≠ [(⟨0, ⟨0, 0⟩⟩, [⟨0, ⟨0, 0⟩, [5]⟩])] := by
  constructor
  · rfl
  · decide

/-- Witness for C2's amended theorem at concrete attestations. -/
theorem insert_attestation_aggregation_witness :
    (num_attestations
        (insert_attestation (fun _ => 0)
          (insert_attestation (fun _ => 0) [] ⟨1, ⟨2, 3⟩, [4]⟩)
          ⟨2, ⟨2, 3⟩, [6]⟩) = 1 ∧
      insert_attestation (fun _ => 0)
          (insert_attestation (fun _ => 0) [] ⟨1, ⟨2, 3⟩, [4]⟩)
          ⟨2, ⟨2, 3⟩, [6]⟩
        = [(AttestationId.from_data (fun _ => 0) (ShardAttestationData.mk 2 3),
            [⟨1 ||| 2, ⟨2, 3⟩, [4, 6]⟩])]) ∧
    insert_attestation (fun _ => 0)
        (insert_attestation (fun _ => 0) [] ⟨1, ⟨2, 3⟩, [4]⟩)
        ⟨1, ⟨2, 3⟩, [4]⟩
      = [(AttestationId.from_data (fun _ => 0) (ShardAttestationData.mk 2 3),
          [⟨1, ⟨2, 3⟩, [4]⟩])] :=
  ⟨insert_attestation_aggregation.1 (fun _ => 0) ⟨1, ⟨2, 3⟩, [4]⟩
      ⟨2, ⟨2, 3⟩, [6]⟩ rfl (by decide),
    insert_attestation_aggregation.2 (fun _ => 0) ⟨1, ⟨2, 3⟩, [4]⟩
      (by decide)⟩

/-- C5: `process_status` classifies by the table rows in order.  A fork
version mismatch disconnects with `Goodbye(IrrelevantNetwork)` and never
hands the peer to the sync manager; otherwise a different finalized
chain (remote finalized epoch at or below ours, both finalized roots
nonzero, local root at the remote finalized epoch's start slot differing
from the remote finalized root) disconnects likewise; otherwise a lower
remote finalized epoch keeps the connection with no action; otherwise a
remote head root present in the store adds the peer to sync as synced;
otherwise it is added as useful. -/
theorem process_status_classification (rootAtSlot : Nat → Option Nat)
    (storeContains : Nat → Bool) (slotsPerEpoch : Nat)
    (localInfo remote : PeerSyncInfo) :
    (localInfo.fork_version ≠ remote.fork_version →
      process_status rootAtSlot storeContains slotsPerEpoch localInfo remote
          = .disconnectIrrelevant ∧
      StatusAction.goodbyeSent
          (process_status rootAtSlot storeContains slotsPerEpoch localInfo remote)
        = some .irrelevantNetwork ∧
      StatusAction.handedToSync
          (process_status rootAtSlot storeContains slotsPerEpoch localInfo remote)
        = false) ∧
    (localInfo.fork_version = remote.fork_version →
      differentFinalizedChain rootAtSlot slotsPerEpoch localInfo remote →
      process_status rootAtSlot storeContains slotsPerEpoch localInfo remote
          = .disconnectIrrelevant ∧
      StatusAction.handedToSync
          (process_status rootAtSlot storeContains slotsPerEpoch localInfo remote)
        = false) ∧
    (localInfo.fork_version = remote.fork_version →
      ¬ differentFinalizedChain rootAtSlot slotsPerEpoch localInfo remote →
      remote.finalized_epoch < localInfo.finalized_epoch →
      process_status rootAtSlot storeContains slotsPerEpoch localInfo remote
          = .keepNaive ∧
      StatusAction.goodbyeSent
          (process_status rootAtSlot storeContains slotsPerEpoch localInfo remote)
        = none ∧
      StatusAction.handedToSync
          (process_status rootAtSlot storeContains slotsPerEpoch localInfo remote)
        = false) ∧
    (localInfo.fork_version = remote.fork_version →
      ¬ differentFinalizedChain rootAtSlot slotsPerEpoch localInfo remote →
      ¬ remote.finalized_epoch < localInfo.finalized_epoch →
      storeContains remote.head_root = true →
      process_status rootAtSlot storeContains slotsPerEpoch localInfo remote
          = .addPeerSynced ∧
      StatusAction.handedToSync
          (process_status rootAtSlot storeContains slotsPerEpoch localInfo remote)
        = true) ∧
    (localInfo.fork_version = remote.fork_version →
      ¬ differentFinalizedChain rootAtSlot slotsPerEpoch localInfo remote →
      ¬ remote.finalized_epoch < localInfo.finalized_epoch →
      storeContains remote.head_root = false →
      process_status rootAtSlot storeContains slotsPerEpoch localInfo remote
          = .addPeerUseful ∧
      StatusAction.handedToSync
          (process_status rootAtSlot storeContains slotsPerEpoch localInfo remote)
        = true) := by
  refine ⟨?_, ?_, ?_, ?_, ?_⟩
  · intro h1
    have hps : process_status rootAtSlot storeContains slotsPerEpoch
        localInfo remote = .disconnectIrrelevant := by
      simp only [process_status, if_pos h1]
    exact ⟨hps, by rw [hps]; rfl, by rw [hps]; rfl⟩
  · intro h1 h2
    have hps : process_status rootAtSlot storeContains slotsPerEpoch
        localInfo remote = .disconnectIrrelevant := by
      simp only [process_status, if_neg (not_not_intro h1), if_pos h2]
    exact ⟨hps, by rw [hps]; rfl⟩
  · intro h1 h2 h3
    have hps : process_status rootAtSlot storeContains slotsPerEpoch
        localInfo remote = .keepNaive := by
      simp only [process_status, if_neg (not_not_intro h1), if_neg h2,
        if_pos h3]
    exact ⟨hps, by rw [hps]; rfl, by rw [hps]; rfl⟩
  · intro h1 h2 h3 h4
    have hps : process_status rootAtSlot storeContains slotsPerEpoch
        localInfo remote = .addPeerSynced := by
      simp only [process_status, if_neg (not_not_intro h1), if_neg h2,
        if_neg h3, h4, if_true, ite_true]
    exact ⟨hps, by rw [hps]; rfl⟩
  · intro h1 h2 h3 h4
    have hps : process_status rootAtSlot storeContains slotsPerEpoch
        localInfo remote = .addPeerUseful := by
      simp only [process_status, if_neg (not_not_intro h1), if_neg h2,
        if_neg h3, h4, Bool.false_eq_true, if_false, ite_false]
    exact ⟨hps, by rw [hps]; rfl⟩

/-- Witness for C5 at concrete inputs: a fork-version mismatch
disconnects (no sync handoff), and with equal fork versions, equal
finalized state and an unknown remote head the peer is added as
useful. -/
theorem process_status_classification_witness :
    ((⟨1, 0, 0, 0, 0⟩ : PeerSyncInfo).fork_version ≠
        (⟨2, 0, 0, 0, 0⟩ : PeerSyncInfo).fork_version ∧
      process_status (fun _ => none) (fun _ => false) 8
          ⟨1, 0, 0, 0, 0⟩ ⟨2, 0, 0, 0, 0⟩
        = .disconnectIrrelevant ∧
      StatusAction.handedToSync
          (process_status (fun _ => none) (fun _ => false) 8
            ⟨1, 0, 0, 0, 0⟩ ⟨2, 0, 0, 0, 0⟩)
        = false) ∧
    process_status (fun _ => none) (fun _ => false) 8
        ⟨1, 0, 0, 9, 0⟩ ⟨1, 0, 0, 9, 0⟩
      = .addPeerUseful :=
  ⟨⟨by decide,
      ((process_status_classification (fun _ => none) (fun _ => false) 8
          ⟨1, 0, 0, 0, 0⟩ ⟨2, 0, 0, 0, 0⟩).1 (by decide)).1,
      ((process_status_classification (fun _ => none) (fun _ => false) 8
          ⟨1, 0, 0, 0, 0⟩ ⟨2, 0, 0, 0, 0⟩).1 (by decide)).2.2⟩,
    ((process_status_classification (fun _ => none) (fun _ => false) 8
        ⟨1, 0, 0, 9, 0⟩ ⟨1, 0, 0, 9, 0⟩).2.2.2.2 rfl
      (by simp [differentFinalizedChain]) (by decide) rfl).1⟩

/-- C6: `on_block_gossip` forwards exactly for `Processed`,
`ParentUnknown` (also notifying sync with `UnknownBlock` — the second
component), `BlockIsAlreadyKnown`, and `FutureSlot` within the
future-slot tolerance (`present_slot + FUTURE_SLOT_TOLERANCE ≥
block_slot`); every other outcome and every error returns false. -/
theorem on_block_gossip_forwarding (result : Except Nat BlockProcessingOutcome) :
    ((on_block_gossip result).1 = true ↔
      (∃ root, result = .ok (.processed root)) ∨
      (∃ parent, result = .ok (.parentUnknown parent)) ∨
      result = .ok .blockIsAlreadyKnown ∨
      (∃ present_slot block_slot,
        result = .ok (.futureSlot present_slot block_slot) ∧
        present_slot + FUTURE_SLOT_TOLERANCE ≥ block_slot)) ∧
    ((on_block_gossip result).2 = true ↔
      ∃ parent, result = .ok (.parentUnknown parent)) := by
  rcases result with e | outcome
  · simp [on_block_gossip]
  · rcases outcome with root | parent | ⟨ps, bs⟩ | _ | reason
    · simp [on_block_gossip]
    · simp [on_block_gossip]
    · by_cases h : ps + FUTURE_SLOT_TOLERANCE ≥ bs
      · constructor
        · simp only [on_block_gossip, if_pos h]
          constructor
          · intro _
            exact Or.inr (Or.inr (Or.inr ⟨ps, bs, rfl, h⟩))
          · intro _
            trivial
        · simp [on_block_gossip, if_pos h]
      · constructor
        · simp only [on_block_gossip, if_neg h]
          constructor
          · intro hfalse
            cases hfalse
          · rintro (⟨r, hr⟩ | ⟨p, hp⟩ | habs | ⟨ps', bs', heq, hle⟩)
            · cases hr
            · cases hp
            · cases habs
            · cases heq
              exact absurd hle h
        · simp [on_block_gossip, if_neg h]
    · simp [on_block_gossip]
    · simp [on_block_gossip]

/-- C10: the `step` field of a `BlocksByRange` request has no influence
on the response stream: two requests agreeing on `start_slot` and
`count` produce identical responses for every store and chain. -/
theorem blocks_by_range_step_irrelevant (store : Nat → Option BeaconBlock)
    (revRoots : List (Nat × Nat)) (start_slot count step1 step2 : Nat) :
    on_blocks_by_range_request store revRoots ⟨start_slot, count, step1⟩
      = on_blocks_by_range_request store revRoots ⟨start_slot, count, step2⟩ := rfl

/-- C8: `per_shard_slot_processing` applies `process_shard_slot`,
increments the slot by one and returns `Ok` — but at a period boundary
it performs nothing beyond that: the first conjunct exhibits a concrete
state satisfying the period-boundary condition
`(epoch(state.slot) + 1) % epochs_per_shard_period == 0`, the second
evaluates the function there to exactly the ordinary per-slot result,
and the third shows the result is the ordinary per-slot result for
every state whatsoever, boundary or not (the source's period branch is
an empty placeholder). -/
theorem per_shard_slot_processing_period_boundary_noop :
    (shardSlotEpoch ⟨16, 1, 32, 999, 8, 2, 1, 3⟩ 4 + 1) % 3 = 0 ∧
    per_shard_slot_processing (fun s _ => ⟨s.slot, s.rest + 7⟩) ⟨4, 0⟩
        ⟨16, 1, 32, 999, 8, 2, 1, 3⟩
      = .ok ⟨5, 7⟩ ∧
    ∀ (f : ShardState → ChainSpec → ShardState) (s : ShardState)
      (spec : ChainSpec),
      per_shard_slot_processing f s spec
        = .ok ⟨(f s spec).slot + 1, (f s spec).rest⟩ :=
  ⟨by decide, rfl, fun _ _ _ => rfl⟩

/-- C9: the canonical root of a `ShardBlock` does not depend on the
`signature` field: for any tree-hash function and any two signatures,
the block hashed with one signature has the same canonical root as with
the other, because the derived `signed_root` skips the signature. -/
theorem canonical_root_ignores_signature
    (treeHash : ShardSignedRootInput → Nat) (b : ShardBlock)
    (s1 s2 : Nat) :
    ShardBlock.canonical_root treeHash { b with signature := s1 } =
      ShardBlock.canonical_root treeHash { b with signature := s2 } := rfl
